import Mathlib

/-!
Verification of the Gutenberg word-frequency tool (src/text_utils.py,
src/db_utils.py, src/main.py) against its natural-language specification.

The Python source is shallowly embedded: strings are Lean `String`s
manipulated through their character lists, the SQLite store is an explicit
record of row lists, and the network is an environment of injected
responses.  Every definition mirrors a concrete piece of the source; the
source location is named in each doc comment.
-/

/-! ## Character/string helpers (ASCII model of Python str methods) -/

/-- ASCII whitespace, modelling the characters `str.strip` removes
(space, tab, newline, carriage return, vertical tab, form feed). -/
def wsChar (c : Char) : Bool :=
  c == ' ' || c == '\t' || c == '\n' || c == '\r' ||
  c == Char.ofNat 11 || c == Char.ofNat 12

/-- Python `str.strip()`: drop leading and trailing whitespace. -/
def strip (s : String) : String :=
  String.mk (((s.data.dropWhile wsChar).reverse.dropWhile wsChar).reverse)

/-- Python `str.lower()` (ASCII model). -/
def lowerStr (s : String) : String :=
  String.mk (s.data.map Char.toLower)

/-- Python `str.upper()` (ASCII model). -/
def upperStr (s : String) : String :=
  String.mk (s.data.map Char.toUpper)

/-- `strHasPre pat s` is true when `pat` is a leading segment of `s`
(model of Python `str.startswith`). -/
def strHasPre : List Char → List Char → Bool
  | [], _ => true
  | _ :: _, [] => false
  | p :: ps, c :: cs => p == c && strHasPre ps cs

/-- `hasSubstrL pat s` is true when `pat` occurs contiguously in `s`
(model of Python `pat in s`). -/
def hasSubstrL (pat : List Char) : List Char → Bool
  | [] => strHasPre pat []
  | c :: rest => strHasPre pat (c :: rest) || hasSubstrL pat rest

/-- Python `pat in s` on strings. -/
def hasSubstr (s pat : String) : Bool :=
  hasSubstrL pat.data s.data

/-- Python `s.endswith(suf)`. -/
def endsWithStr (s suf : String) : Bool :=
  strHasPre suf.data.reverse s.data.reverse

/-- Python `str.splitlines` for LF-separated text, modelled as splitting on
the newline character (accumulator holds the current line reversed). -/
def splitLinesAux : List Char → List Char → List (List Char)
  | [], acc => [acc.reverse]
  | c :: rest, acc =>
    if c == '\n' then acc.reverse :: splitLinesAux rest []
    else splitLinesAux rest (c :: acc)

/-- Split a string into its lines. -/
def splitLines (s : String) : List String :=
  (splitLinesAux s.data []).map String.mk

/-- Byte-wise (code-point) lexicographic `≤` on strings, the order SQLite's
BINARY collation uses for `ORDER BY word ASC`. -/
def lexLe : List Char → List Char → Bool
  | [], _ => true
  | _ :: _, [] => false
  | a :: as, b :: bs => if a == b then lexLe as bs else decide (a.toNat < b.toNat)

/-! ## Generic stable insertion sort

Python's `Counter.most_common(n)` is documented as
`sorted(items, key=count, reverse=True)[:n]`, a *stable* sort; SQLite's
`ORDER BY` is modelled with the same sort under a different order.
`insBy le x l` puts `x` before the first element `y` with `le x y`, so
elements that compare equal keep their original relative order. -/

/-- Insert `x` into `l`, placing it before the first `y` with `le x y`. -/
def insBy (le : α → α → Bool) (x : α) : List α → List α
  | [] => [x]
  | y :: rest => if le x y then x :: y :: rest else y :: insBy le x rest

/-- Stable insertion sort by the boolean relation `le`. -/
def insSortBy (le : α → α → Bool) : List α → List α
  | [] => []
  | x :: rest => insBy le x (insSortBy le rest)

theorem mem_insBy (le : α → α → Bool) (x a : α) (l : List α) :
    a ∈ insBy le x l ↔ a = x ∨ a ∈ l := by
  induction l with
  | nil => simp [insBy]
  | cons y rest ih =>
    rw [insBy]
    by_cases h : le x y = true
    · rw [if_pos h]
      simp [List.mem_cons]
    · rw [if_neg h]
      simp [List.mem_cons, ih]
      tauto

theorem perm_insBy (le : α → α → Bool) (x : α) (l : List α) :
    (insBy le x l).Perm (x :: l) := by
  induction l with
  | nil => simp [insBy]
  | cons y rest ih =>
    rw [insBy]
    by_cases h : le x y = true
    · rw [if_pos h]
    · rw [if_neg h]
      exact (ih.cons y).trans (List.Perm.swap x y rest)

theorem perm_insSortBy (le : α → α → Bool) (l : List α) :
    (insSortBy le l).Perm l := by
  induction l with
  | nil => simp [insSortBy]
  | cons x rest ih =>
    exact (perm_insBy le x (insSortBy le rest)).trans (ih.cons x)

theorem length_insSortBy (le : α → α → Bool) (l : List α) :
    (insSortBy le l).length = l.length :=
  (perm_insSortBy le l).length_eq

theorem pairwise_insBy (le : α → α → Bool)
    (total : ∀ a b, le a b = true ∨ le b a = true)
    (tr : ∀ a b c, le a b = true → le b c = true → le a c = true)
    (x : α) (l : List α) (h : l.Pairwise (fun a b => le a b = true)) :
    (insBy le x l).Pairwise (fun a b => le a b = true) := by
  induction l with
  | nil => simp [insBy]
  | cons y rest ih =>
    rcases List.pairwise_cons.mp h with ⟨hy, hrest⟩
    rw [insBy]
    by_cases hxy : le x y = true
    · rw [if_pos hxy]
      refine List.pairwise_cons.mpr ⟨?_, h⟩
      intro b hb
      rcases List.mem_cons.mp hb with rfl | hb
      · exact hxy
      · exact tr x y b hxy (hy b hb)
    · rw [if_neg hxy]
      refine List.pairwise_cons.mpr ⟨?_, ih hrest⟩
      intro b hb
      rcases (mem_insBy le x b rest).mp hb with hbx | hb
      · rcases total x y with hx | hx
        · exact absurd hx hxy
        · rw [hbx]
          exact hx
      · exact hy b hb

theorem pairwise_insSortBy (le : α → α → Bool)
    (total : ∀ a b, le a b = true ∨ le b a = true)
    (tr : ∀ a b c, le a b = true → le b c = true → le a c = true)
    (l : List α) : (insSortBy le l).Pairwise (fun a b => le a b = true) := by
  induction l with
  | nil => simp [insSortBy]
  | cons x rest ih => exact pairwise_insBy le total tr x (insSortBy le rest) ih

/-! ## Analyzer (src/text_utils.py) -/

/-- The fixed stopword list of `text_utils.STOPWORDS`. -/
def STOPWORDS : List String :=
  ["the", "a", "an", "and", "or", "but", "if", "in", "on", "at", "to",
   "of", "for", "with", "without", "from", "by",
   "i", "you", "he", "she", "it", "we", "they",
   "this", "that", "these", "those", "is", "are", "was", "were", "be",
   "as", "so", "than", "then", "there", "here"]

/-- The apostrophe character, written by code point. -/
def apos : Char := Char.ofNat 39

/-- A character matched by the token pattern of
`re.findall(r"[a-z']+", text)`: a lowercase ASCII letter or an apostrophe. -/
def isTokChar (c : Char) : Bool :=
  (decide ('a' ≤ c) && decide (c ≤ 'z')) || c == apos

/-- Maximal runs of token characters, i.e. `re.findall(r"[a-z']+", text)`
over the character list (accumulator holds the current run reversed). -/
def tokensAux : List Char → List Char → List (List Char)
  | [], acc => if acc.isEmpty then [] else [acc.reverse]
  | c :: rest, acc =>
    if isTokChar c then tokensAux rest (c :: acc)
    else if acc.isEmpty then tokensAux rest []
    else acc.reverse :: tokensAux rest []

/-- The token list of a (already lowercased) string. -/
def findTokens (s : String) : List String :=
  (tokensAux s.data []).map String.mk

/-- The distinct elements of `l` in order of first occurrence — the key
order of a Python `collections.Counter` built from `l`. -/
def firstKeys : List String → List String
  | [] => []
  | w :: rest => w :: (firstKeys rest).filter (fun y => y != w)

/-- `Counter(l)` as an association list: keys in first-occurrence order,
each with its multiplicity in `l`. -/
def counterList (l : List String) : List (String × Nat) :=
  (firstKeys l).map (fun w => (w, l.count w))

/-- The comparison underlying `Counter.most_common`: by count, descending.
`most_common` is a stable descending sort, so equal counts keep
first-occurrence order. -/
def countGe (a b : String × Nat) : Bool :=
  decide (b.2 ≤ a.2)

/-- `text_utils.compute_top_words(text, n)`: lowercase the text, take the
maximal `[a-z']+` runs, drop stopwords and length-≤1 tokens, count, and
return the `n` most common (stable descending sort by count, truncated). -/
def compute_top_words (text : String) (n : Nat) : List (String × Nat) :=
  let lowered := lowerStr text
  let tokens := findTokens lowered
  let filtered := tokens.filter (fun t => !(STOPWORDS.contains t) && decide (1 < t.length))
  (insSortBy countGe (counterList filtered)).take n

theorem countGe_total (a b : String × Nat) : countGe a b = true ∨ countGe b a = true := by
  rcases Nat.le_total b.2 a.2 with h | h
  · exact Or.inl (decide_eq_true h)
  · exact Or.inr (decide_eq_true h)

theorem countGe_trans (a b c : String × Nat) (h1 : countGe a b = true)
    (h2 : countGe b c = true) : countGe a c = true :=
  decide_eq_true (Nat.le_trans (of_decide_eq_true h2) (of_decide_eq_true h1))

theorem sorted_compute_top_words (text : String) (n : Nat) :
    (compute_top_words text n).Pairwise (fun a b => b.2 ≤ a.2) := by
  have h := pairwise_insSortBy countGe countGe_total countGe_trans
    (counterList ((findTokens (lowerStr text)).filter
      (fun t => !(STOPWORDS.contains t) && decide (1 < t.length))))
  have h2 := h.sublist (List.take_sublist n _)
  exact h2.imp (fun hab => of_decide_eq_true hab)

theorem mem_firstKeys (w : String) (l : List String) (h : w ∈ firstKeys l) : w ∈ l := by
  induction l with
  | nil => simp [firstKeys] at h
  | cons x rest ih =>
    rw [firstKeys] at h
    rcases List.mem_cons.mp h with rfl | h
    · exact List.mem_cons_self w rest
    · exact List.mem_cons_of_mem x (ih (List.mem_filter.mp h).1)

theorem mem_compute_top_words (text : String) (n : Nat) (p : String × Nat)
    (hp : p ∈ compute_top_words text n) :
    ∃ filtered, filtered = (findTokens (lowerStr text)).filter
        (fun t => !(STOPWORDS.contains t) && decide (1 < t.length)) ∧
      p.1 ∈ filtered ∧ p.2 = filtered.count p.1 := by
  rw [compute_top_words] at hp
  have hp2 := (List.take_sublist n _).mem hp
  have hp3 := (perm_insSortBy countGe _).mem_iff.mp hp2
  rcases List.mem_map.mp hp3 with ⟨w, hw, hweq⟩
  refine ⟨_, rfl, ?_, ?_⟩
  · rw [show p.1 = w by rw [← hweq]]
    exact mem_firstKeys w _ hw
  · rw [show p.1 = w by rw [← hweq], show p.2 = _ by rw [← hweq]]

/-- C7: for every text and n, `compute_top_words` returns at most n
entries, every count is at least 1, and no returned word is a stopword or
has length ≤ 1. -/
theorem C7_top_words_shape (text : String) (n : Nat) :
    (compute_top_words text n).length ≤ n ∧
    ∀ p ∈ compute_top_words text n,
      1 ≤ p.2 ∧ p.1 ∉ STOPWORDS ∧ 1 < p.1.length := by
  constructor
  · exact List.length_take_le n _
  · intro p hp
    rcases mem_compute_top_words text n p hp with ⟨filtered, hfeq, hmem, hcount⟩
    have hobs := List.mem_filter.mp (hfeq ▸ hmem)
    have hpred := hobs.2
    rw [Bool.and_eq_true] at hpred
    refine ⟨?_, ?_, ?_⟩
    · rw [hcount]
      exact List.count_pos_iff.mpr hmem
    · intro hin
      have : STOPWORDS.contains p.1 = true := List.elem_eq_true_of_mem hin
      rw [this] at hpred
      simpa using hpred.1
    · exact of_decide_eq_true hpred.2

/-- Witness for C7 at a concrete input. -/
theorem C7_top_words_shape_witness :
    ("cat", 2) ∈ compute_top_words "The cat sat on the mat. The Cat ran." 10 ∧
    1 ≤ 2 ∧ "cat" ∉ STOPWORDS ∧ 1 < "cat".length :=
  ⟨by decide,
   (C7_top_words_shape "The cat sat on the mat. The Cat ran." 10).2 ("cat", 2) (by decide)⟩

/-- C1 counterexample: on the spec's own example input,
`compute_top_words` does not break the three count-1 ties alphabetically —
`Counter.most_common` keeps them in first-occurrence order
(sat, mat, ran), so the claimed output is wrong. -/
theorem C1_counterexample :
    compute_top_words "The cat sat on the mat. The Cat ran." 10 ≠
      [("cat", 2), ("mat", 1), ("ran", 1), ("sat", 1)] := by decide

/-- C1 (amended): for every text and n, the sequence returned by
`compute_top_words` is sorted by count descending; ties are kept in
first-occurrence order rather than broken alphabetically, and the example
input with n = 10 yields [("cat",2),("sat",1),("mat",1),("ran",1)]. -/
theorem C1_amended :
    (∀ (text : String) (n : Nat),
      (compute_top_words text n).Pairwise (fun a b => b.2 ≤ a.2)) ∧
    compute_top_words "The cat sat on the mat. The Cat ran." 10 =
      [("cat", 2), ("sat", 1), ("mat", 1), ("ran", 1)] :=
  ⟨sorted_compute_top_words, by decide⟩

/-- The two-apostrophe token, built from code points. -/
def aposTok : String := String.mk [apos, apos]

/-- C10: a maximal run of two apostrophes survives every filter of
`compute_top_words` — it matches `[a-z']+`, is no stopword and has
length 2 — so a returned "word" can contain no letters at all. -/
theorem C10_nonletter_word :
    (aposTok, 2) ∈ compute_top_words
      (String.mk ['a', ' ', apos, apos, ' ', 'b', ' ', apos, apos]) 10 ∧
    aposTok.data.all (fun c => !c.isAlpha) = true := by decide

/-! ## Title extractor (src/text_utils.py, extract_title) -/

/-- The first loop of `extract_title`: scan lines for one whose stripped,
uppercased form starts with "TITLE:", returning the stripped remainder
after the six-character prefix. -/
def scanTitleLines : List String → Option String
  | [] => none
  | l :: rest =>
    let s := strip l
    if strHasPre "TITLE:".data (upperStr s).data then
      some (strip (String.mk (s.data.drop 6)))
    else scanTitleLines rest

/-- The fallback loop of `extract_title`: the first line with non-blank
content, stripped. -/
def firstNonBlank : List String → Option String
  | [] => none
  | l :: rest => if strip l == "" then firstNonBlank rest else some (strip l)

/-- `text_utils.extract_title(text)`: scan the first 60 lines for a
"TITLE:" line; otherwise first non-blank line; otherwise the fixed
fallback string. -/
def extract_title (text : String) : String :=
  let lines := splitLines text
  match scanTitleLines (lines.take 60) with
  | some t => t
  | none =>
    match firstNonBlank lines with
    | some t => t
    | none => "Unknown Title"

/-- Does a line, stripped and uppercased, start with "TITLE:"?  (The
predicate of the claim's wording.) -/
def isTitleLine (l : String) : Bool :=
  strHasPre "TITLE:".data (upperStr (strip l)).data

theorem scanTitleLines_eq_find? (ls : List String) :
    scanTitleLines ls =
      (ls.find? isTitleLine).map (fun l => strip (String.mk ((strip l).data.drop 6))) := by
  induction ls with
  | nil => rfl
  | cons l rest ih =>
    rw [scanTitleLines, List.find?]
    by_cases h : isTitleLine l = true
    · rw [if_pos (by exact h), h]
      rfl
    · rw [if_neg (by exact h), Bool.eq_false_iff.mpr h]
      simpa using ih

theorem firstNonBlank_eq_find? (ls : List String) :
    firstNonBlank ls = (ls.find? (fun l => !(strip l == ""))).map strip := by
  induction ls with
  | nil => rfl
  | cons l rest ih =>
    rw [firstNonBlank, List.find?]
    by_cases h : strip l == ""
    · rw [if_pos h]
      have : (!(strip l == "")) = false := by rw [h]; rfl
      rw [this]
      simpa using ih
    · rw [if_neg h]
      have : (!(strip l == "")) = true := by
        rw [Bool.eq_false_iff.mpr h]; rfl
      rw [this]
      rfl

/-- C9: `extract_title` returns the trimmed remainder after "TITLE:" of
the first matching line among the first 60; failing that, the first
non-blank line trimmed; failing that, "Unknown Title" — and on the spec's
example it returns "Moby Dick". -/
theorem C9_extract_title_characterization :
    (∀ text : String,
      extract_title text =
        match ((splitLines text).take 60).find? isTitleLine with
        | some l => strip (String.mk ((strip l).data.drop 6))
        | none =>
          match (splitLines text).find? (fun l => !(strip l == "")) with
          | some l => strip l
          | none => "Unknown Title") ∧
    extract_title "Some preamble\nTITLE: Moby Dick\nmore text" = "Moby Dick" := by
  constructor
  · intro text
    rw [extract_title, scanTitleLines_eq_find?, firstNonBlank_eq_find?]
    rcases ((splitLines text).take 60).find? isTitleLine with _ | l
    · rcases (splitLines text).find? (fun l => !(strip l == "")) with _ | l
      · rfl
      · rfl
    · rfl
  · decide

/-! ## Remote catalog client (src/text_utils.py, search_gutenberg_by_title)

Only the response handling is embedded: the network round trip is outside
the embedding, so the function is given the parsed `results` list, each
result being its `formats` mapping as an association list in document
order (Python dicts preserve insertion order). -/

/-- First loop of the selection: first format whose content-type label
contains "text/plain" and whose location ends in ".txt". -/
def findPlainTxt : List (String × String) → Option String
  | [] => none
  | kv :: rest =>
    if hasSubstr kv.1 "text/plain" && endsWithStr kv.2 ".txt" then some kv.2
    else findPlainTxt rest

/-- Second loop of the selection: first format whose content-type label
contains "text/plain" at all. -/
def findPlainAny : List (String × String) → Option String
  | [] => none
  | kv :: rest =>
    if hasSubstr kv.1 "text/plain" then some kv.2
    else findPlainAny rest

/-- The response-handling core of `text_utils.search_gutenberg_by_title`:
empty results yield None; otherwise the first result's formats are scanned
by the two loops in order, falling back to None. -/
def search_gutenberg_by_title (results : List (List (String × String))) : Option String :=
  match results with
  | [] => none
  | first_book :: _ =>
    match findPlainTxt first_book with
    | some v => some v
    | none => findPlainAny first_book

theorem findPlainTxt_eq_find? (fs : List (String × String)) :
    findPlainTxt fs =
      (fs.find? (fun kv => hasSubstr kv.1 "text/plain" && endsWithStr kv.2 ".txt")).map
        (fun kv => kv.2) := by
  induction fs with
  | nil => rfl
  | cons kv rest ih =>
    rw [findPlainTxt, List.find?]
    by_cases h : (hasSubstr kv.1 "text/plain" && endsWithStr kv.2 ".txt") = true
    · rw [if_pos h, h]
      rfl
    · rw [if_neg h, Bool.eq_false_iff.mpr h]
      simpa using ih

theorem findPlainAny_eq_find? (fs : List (String × String)) :
    findPlainAny fs =
      (fs.find? (fun kv => hasSubstr kv.1 "text/plain")).map (fun kv => kv.2) := by
  induction fs with
  | nil => rfl
  | cons kv rest ih =>
    rw [findPlainAny, List.find?]
    by_cases h : hasSubstr kv.1 "text/plain" = true
    · rw [if_pos h, h]
      rfl
    · rw [if_neg h, Bool.eq_false_iff.mpr h]
      simpa using ih

/-- C8: with a non-empty results list the function returns the location of
the first format of the first result whose label contains "text/plain" and
whose location ends in ".txt"; otherwise the first whose label contains
"text/plain"; otherwise None — and an empty results list yields None. -/
theorem C8_format_selection :
    search_gutenberg_by_title [] = none ∧
    ∀ (first_book : List (String × String)) (rest : List (List (String × String))),
      search_gutenberg_by_title (first_book :: rest) =
        ((first_book.find?
            (fun kv => hasSubstr kv.1 "text/plain" && endsWithStr kv.2 ".txt")).map
          (fun kv => kv.2)).or
        ((first_book.find? (fun kv => hasSubstr kv.1 "text/plain")).map (fun kv => kv.2)) := by
  refine ⟨rfl, ?_⟩
  intro first_book rest
  rw [search_gutenberg_by_title, ← findPlainTxt_eq_find?, ← findPlainAny_eq_find?]
  rcases findPlainTxt first_book with _ | v
  · rfl
  · rfl

/-! ## Cache store (src/db_utils.py)

The SQLite database is modelled as explicit row lists in rowid order.
`books.title` carries SQLite's default BINARY collation, so its UNIQUE
constraint and the `ON CONFLICT(title)` / `WHERE title = ?` clauses
compare titles case-sensitively; only `get_book_by_title` lowercases both
sides (`WHERE LOWER(title) = LOWER(?)`). -/

/-- A row of the `books` table. -/
structure BookRow where
  id : Nat
  title : String
  url : String
deriving DecidableEq, Repr

/-- A row of the `word_freqs` table (the surrogate `id` column plays no
role in any query and is omitted). -/
structure FreqRow where
  book_id : Nat
  word : String
  frequency : Nat
deriving DecidableEq, Repr

/-- The persistent store: rows in insertion (rowid) order plus the next
AUTOINCREMENT id for `books`. -/
structure DB where
  books : List BookRow
  freqs : List FreqRow
  nextId : Nat
deriving DecidableEq, Repr

/-- `db_utils.get_book_by_title`: `SELECT ... WHERE LOWER(title) =
LOWER(?)` with `fetchone`, i.e. the first row whose lowercased title
matches. -/
def get_book_by_title (db : DB) (title : String) : Option BookRow :=
  db.books.find? (fun b => lowerStr b.title == lowerStr title)

/-- SQLite's `ORDER BY frequency DESC, word ASC` as a boolean order on
(word, frequency) pairs. -/
def freqOrd (a b : String × Nat) : Bool :=
  decide (b.2 < a.2) || (decide (a.2 = b.2) && lexLe a.1.data b.1.data)

/-- Sort (word, frequency) pairs by count descending, word ascending. -/
def sortFreqs (l : List (String × Nat)) : List (String × Nat) :=
  insSortBy freqOrd l

/-- `db_utils.get_word_frequencies`: the stored (word, frequency) pairs of
a book, ordered by frequency descending then word ascending. -/
def get_word_frequencies (db : DB) (book_id : Nat) : List (String × Nat) :=
  sortFreqs ((db.freqs.filter (fun r => r.book_id == book_id)).map
    (fun r => (r.word, r.frequency)))

/-- The state `insert_or_update_book` COMMITs first: `INSERT INTO books
... ON CONFLICT(title) DO UPDATE SET url = excluded.url` followed by
`conn.commit()` — the `word_freqs` table is still untouched here. -/
def books_after_first_commit (db : DB) (title url : String) : DB :=
  if db.books.any (fun b => b.title == title) then
    ⟨db.books.map (fun b => if b.title == title then ⟨b.id, b.title, url⟩ else b),
     db.freqs, db.nextId⟩
  else
    ⟨db.books ++ [⟨db.nextId, title, url⟩], db.freqs, db.nextId + 1⟩

/-- `db_utils.insert_or_update_book`: upsert the book row (first commit),
re-select its id by exact title, delete its old `word_freqs` rows and
insert the supplied list (second commit). -/
def insert_or_update_book (db : DB) (title url : String)
    (word_freqs : List (String × Nat)) : DB :=
  let db1 := books_after_first_commit db title url
  match db1.books.find? (fun b => b.title == title) with
  | none => db1
  | some b =>
    ⟨db1.books,
     db1.freqs.filter (fun r => !(r.book_id == b.id)) ++
       word_freqs.map (fun p => ⟨b.id, p.1, p.2⟩),
     db1.nextId⟩

/-- C2: the first committed state of the call
`insert_or_update_book "T" "u1" [("new", 3)]`, run against a store that
already holds book "T" with url "u0" and frequency row ("old", 5), is a
torn mix — the book row already carries the new url while the frequency
rows are still those of the previous analysis — and differs from both the
initial and the final state.  The two commits are separate transactions,
so this mix is durable and visible to a concurrent reader. -/
theorem C2_first_commit_is_torn :
    books_after_first_commit ⟨[⟨0, "T", "u0"⟩], [⟨0, "old", 5⟩], 1⟩ "T" "u1" =
      ⟨[⟨0, "T", "u1"⟩], [⟨0, "old", 5⟩], 1⟩ ∧
    books_after_first_commit ⟨[⟨0, "T", "u0"⟩], [⟨0, "old", 5⟩], 1⟩ "T" "u1" ≠
      ⟨[⟨0, "T", "u0"⟩], [⟨0, "old", 5⟩], 1⟩ ∧
    books_after_first_commit ⟨[⟨0, "T", "u0"⟩], [⟨0, "old", 5⟩], 1⟩ "T" "u1" ≠
      insert_or_update_book ⟨[⟨0, "T", "u0"⟩], [⟨0, "old", 5⟩], 1⟩ "T" "u1" [("new", 3)] := by
  refine ⟨by decide, by decide, by decide⟩

/-- C4 counterexample: two upserts whose titles differ only in case create
two separate book rows — `books.title` is UNIQUE under BINARY collation,
so no conflict fires — refuting "at most one Book per case-insensitive
title". -/
theorem C4_counterexample :
    (insert_or_update_book
        (insert_or_update_book ⟨[], [], 0⟩ "Ab" "u" []) "AB" "v" []).books =
      [⟨0, "Ab", "u"⟩, ⟨1, "AB", "v"⟩] ∧
    lowerStr "Ab" = lowerStr "AB" ∧ "Ab" ≠ "AB" := by
  refine ⟨by decide, by decide, by decide⟩

/-- C4 (amended): the store keeps at most one Book per *exact* title —
`insert_or_update_book` preserves pairwise-distinct titles, a call whose
title exactly matches an existing row leaves the title list unchanged
(in-place update), and a call whose title matches no row exactly (even one
differing only in case) appends a new row. -/
theorem C4_amended (db : DB) (title url : String) (word_freqs : List (String × Nat))
    (h : db.books.Pairwise (fun a b => a.title ≠ b.title)) :
    (insert_or_update_book db title url word_freqs).books.Pairwise
      (fun a b => a.title ≠ b.title) ∧
    ((∃ b ∈ db.books, b.title = title) →
      (insert_or_update_book db title url word_freqs).books.map (fun b => b.title) =
        db.books.map (fun b => b.title)) ∧
    ((¬ ∃ b ∈ db.books, b.title = title) →
      (insert_or_update_book db title url word_freqs).books.map (fun b => b.title) =
        db.books.map (fun b => b.title) ++ [title]) := by
  have hbooks : (insert_or_update_book db title url word_freqs).books =
      (books_after_first_commit db title url).books := by
    rw [insert_or_update_book]
    split
    · rfl
    · rfl
  have hany : (db.books.any (fun b => b.title == title) = true) ↔
      ∃ b ∈ db.books, b.title = title := by
    rw [List.any_eq_true]
    constructor
    · rintro ⟨b, hb, he⟩
      exact ⟨b, hb, by simpa using he⟩
    · rintro ⟨b, hb, he⟩
      exact ⟨b, hb, by simpa using he⟩
  by_cases hc : db.books.any (fun b => b.title == title) = true
  · have hmap : (books_after_first_commit db title url).books =
        db.books.map (fun b => if b.title == title then ⟨b.id, b.title, url⟩ else b) := by
      rw [books_after_first_commit, if_pos hc]
    have htitles : ∀ b : BookRow,
        (if b.title == title then (⟨b.id, b.title, url⟩ : BookRow) else b).title = b.title := by
      intro b
      by_cases hbt : b.title == title
      · rw [if_pos hbt]
      · rw [if_neg hbt]
    refine ⟨?_, ?_, ?_⟩
    · rw [hbooks, hmap]
      refine List.pairwise_map.mpr (h.imp ?_)
      intro a b hab
      rw [htitles a, htitles b]
      exact hab
    · intro _
      rw [hbooks, hmap, List.map_map]
      exact List.map_congr_left (fun b _ => htitles b)
    · intro hne
      exact absurd (hany.mp hc) hne
  · have hmap : (books_after_first_commit db title url).books =
        db.books ++ [⟨db.nextId, title, url⟩] := by
      rw [books_after_first_commit, if_neg hc]
    have hnomem : ∀ b ∈ db.books, b.title ≠ title := by
      intro b hb he
      exact hc (List.any_eq_true.mpr ⟨b, hb, by simpa using he⟩)
    refine ⟨?_, ?_, ?_⟩
    · rw [hbooks, hmap]
      refine List.pairwise_append.mpr ⟨h, List.pairwise_singleton _ _, ?_⟩
      intro a ha b hb
      rw [List.mem_singleton.mp hb]
      exact hnomem a ha
    · rintro ⟨b, hb, he⟩
      exact absurd he (hnomem b hb)
    · intro _
      rw [hbooks, hmap, List.map_append]
      rfl

/-- Witness for C4 (amended) at a concrete store. -/
theorem C4_amended_witness :
    (insert_or_update_book ⟨[⟨0, "Moby Dick", "u"⟩], [], 1⟩ "Moby Dick" "v" []).books.Pairwise
      (fun a b => a.title ≠ b.title) ∧
    (insert_or_update_book ⟨[⟨0, "Moby Dick", "u"⟩], [], 1⟩ "Moby Dick" "v" []).books.map
        (fun b => b.title) =
      [⟨(0 : Nat), "Moby Dick", "u"⟩].map (fun b : BookRow => b.title) := by
  have h := C4_amended ⟨[⟨0, "Moby Dick", "u"⟩], [], 1⟩ "Moby Dick" "v" []
    (by decide)
  exact ⟨h.1, h.2.1 ⟨⟨0, "Moby Dick", "u"⟩, by decide, rfl⟩⟩

/-! ## Lookup orchestrator (src/main.py, GutenbergApp.on_search_title)

The two network calls are injected as an environment; `.error` stands for
a raised `requests.RequestException` (caught by the handler, which only
sets a status message — the store is not touched). -/

/-- The injected network: `search_gutenberg_by_title` (already reduced to
its optional location) and `fetch_book_text`. -/
structure Env where
  search : String → Except Unit (Option String)
  fetch : String → Except Unit String

/-- What `on_search_title` leaves on screen, by code path. -/
inductive SearchOutcome where
  | emptyInput
  | cacheHit (shown : List (String × Nat)) (stored_title : String)
  | notFound
  | netError
  | fresh (shown : List (String × Nat)) (book_title : String)
deriving DecidableEq, Repr

/-- Steps 2–3 of `on_search_title` (the cache-miss path): resolve the
title, fetch the text, extract the canonical title, compute the top
words, store, and display the fresh result. -/
def miss_path (env : Env) (db : DB) (title : String) : DB × SearchOutcome :=
  match env.search title with
  | .error _ => (db, .netError)
  | .ok none => (db, .notFound)
  | .ok (some text_url) =>
    match env.fetch text_url with
    | .error _ => (db, .netError)
    | .ok text =>
      let book_title := extract_title text
      let top_words := compute_top_words text 10
      (insert_or_update_book db book_title text_url top_words, .fresh top_words book_title)

/-- `GutenbergApp.on_search_title`: strip the entry text; on empty input
do nothing; otherwise serve from the store when the looked-up book has a
non-empty frequency list, else run the miss path. -/
def on_search_title (env : Env) (db : DB) (raw : String) : DB × SearchOutcome :=
  let title := strip raw
  if title == "" then (db, .emptyInput)
  else
    match get_book_by_title db title with
    | some book =>
      let word_freqs := get_word_frequencies db book.id
      if word_freqs.isEmpty then miss_path env db title
      else (db, .cacheHit (word_freqs.take 10) book.title)
    | none => miss_path env db title

theorem miss_path_spec (env : Env) (db : DB) (title : String) :
    miss_path env db title = (db, .netError) ∨
    miss_path env db title = (db, .notFound) ∨
    ∃ u text, env.search title = .ok (some u) ∧ env.fetch u = .ok text ∧
      miss_path env db title =
        (insert_or_update_book db (extract_title text) u (compute_top_words text 10),
         .fresh (compute_top_words text 10) (extract_title text)) := by
  rcases hs : env.search title with e | o
  · simp [miss_path, hs]
  · rcases o with _ | u
    · simp [miss_path, hs]
    · rcases hf : env.fetch u with e | text
      · simp [miss_path, hs, hf]
      · exact Or.inr (Or.inr ⟨u, text, rfl, hf, by simp [miss_path, hs, hf]⟩)

theorem miss_path_not_hit (env : Env) (db : DB) (title : String)
    (shown : List (String × Nat)) (stored_title : String) :
    (miss_path env db title).2 ≠ .cacheHit shown stored_title := by
  rcases miss_path_spec env db title with h | h | ⟨u, text, _, _, h⟩ <;> rw [h] <;> simp

theorem miss_path_db_unchanged (env : Env) (db : DB) (title : String)
    (h : ∀ l t, (miss_path env db title).2 ≠ .fresh l t) :
    (miss_path env db title).1 = db := by
  rcases miss_path_spec env db title with h1 | h1 | ⟨u, text, _, _, h1⟩
  · rw [h1]
  · rw [h1]
  · exact absurd (by rw [h1]) (h (compute_top_words text 10) (extract_title text))

theorem on_search_title_spec (env : Env) (db : DB) (raw : String) :
    (strip raw = "" ∧ on_search_title env db raw = (db, .emptyInput)) ∨
    (strip raw ≠ "" ∧ ∃ book : BookRow,
      get_book_by_title db (strip raw) = some book ∧
      get_word_frequencies db book.id ≠ [] ∧
      on_search_title env db raw =
        (db, .cacheHit ((get_word_frequencies db book.id).take 10) book.title)) ∨
    (strip raw ≠ "" ∧
      (get_book_by_title db (strip raw) = none ∨
        ∃ book : BookRow, get_book_by_title db (strip raw) = some book ∧
          get_word_frequencies db book.id = []) ∧
      on_search_title env db raw = miss_path env db (strip raw)) := by
  by_cases he : (strip raw == "") = true
  · refine Or.inl ⟨by simpa using he, ?_⟩
    simp [on_search_title, he]
  · have hne : strip raw ≠ "" := by simpa using he
    cases hfound : get_book_by_title db (strip raw) with
    | none =>
      refine Or.inr (Or.inr ⟨hne, Or.inl rfl, ?_⟩)
      simp [on_search_title, he, hfound]
    | some book =>
      by_cases hemp : (get_word_frequencies db book.id).isEmpty = true
      · refine Or.inr (Or.inr ⟨hne, Or.inr ⟨book, rfl, by simpa using hemp⟩, ?_⟩)
        simp [on_search_title, he, hfound, hemp]
      · refine Or.inr (Or.inl ⟨hne, book, rfl, by simpa using hemp, ?_⟩)
        simp [on_search_title, he, hfound, hemp]

/-- C5: the cache check of `on_search_title` counts as a hit only when the
book exists and has at least one stored frequency row; a book with an
empty frequency set sends the call down the full miss path
(resolve → fetch → analyze → re-store). -/
theorem C5_empty_freqs_is_miss (env : Env) (db : DB) (raw : String) :
    (∀ book : BookRow, strip raw ≠ "" →
      get_book_by_title db (strip raw) = some book →
      get_word_frequencies db book.id = [] →
      on_search_title env db raw = miss_path env db (strip raw)) ∧
    (∀ shown stored_title,
      (on_search_title env db raw).2 = .cacheHit shown stored_title →
      ∃ book : BookRow, get_book_by_title db (strip raw) = some book ∧
        get_word_frequencies db book.id ≠ [] ∧
        shown = (get_word_frequencies db book.id).take 10) := by
  constructor
  · intro book hne hfound hempty
    have he : ¬(strip raw == "") = true := by simpa using hne
    simp [on_search_title, he, hfound, hempty]
  · intro shown stored_title h
    rcases on_search_title_spec env db raw with ⟨_, heq⟩ |
      ⟨hne, book, hfound, hnemp, heq⟩ | ⟨hne, _, heq⟩
    · rw [heq] at h
      exact absurd h (by simp)
    · rw [heq] at h
      have hinj := SearchOutcome.cacheHit.inj h
      exact ⟨book, hfound, hnemp, hinj.1.symm⟩
    · rw [heq] at h
      exact absurd h (miss_path_not_hit env db (strip raw) shown stored_title)

/-- Witness for C5: a store whose only book has no frequency rows is a
miss — the call runs the miss path. -/
theorem C5_empty_freqs_is_miss_witness :
    on_search_title ⟨fun _ => .ok none, fun _ => .ok ""⟩
        ⟨[⟨0, "Emma", "u"⟩], [], 1⟩ "Emma" =
      miss_path ⟨fun _ => .ok none, fun _ => .ok ""⟩ ⟨[⟨0, "Emma", "u"⟩], [], 1⟩
        (strip "Emma") :=
  (C5_empty_freqs_is_miss ⟨fun _ => .ok none, fun _ => .ok ""⟩
      ⟨[⟨0, "Emma", "u"⟩], [], 1⟩ "Emma").1
    ⟨0, "Emma", "u"⟩ (by decide) (by decide) (by decide)

/-- C6: when `on_search_title` terminates without reaching a successful
analysis — empty input, cache hit, no catalog result, or a network
failure — the store is left exactly as it was (in particular any
previously cached entry for the title is unchanged). -/
theorem C6_no_mutation_on_failure (env : Env) (db : DB) (raw : String)
    (h : ∀ l t, (on_search_title env db raw).2 ≠ .fresh l t) :
    (on_search_title env db raw).1 = db := by
  rcases on_search_title_spec env db raw with ⟨_, heq⟩ |
    ⟨_, book, _, _, heq⟩ | ⟨_, _, heq⟩
  · rw [heq]
  · rw [heq]
  · rw [heq] at h ⊢
    exact miss_path_db_unchanged env db (strip raw) h

/-- A network that finds nothing, for the C6 witness. -/
def envNoResult : Env := ⟨fun _ => .ok none, fun _ => .ok ""⟩

/-- A concrete store with one cached book, for the C6 witness. -/
def dbOneBook : DB := ⟨[⟨0, "Emma", "u"⟩], [⟨0, "word", 3⟩], 1⟩

/-- Witness for C6: a lookup whose catalog search returns no result
leaves a concrete store untouched. -/
theorem C6_no_mutation_on_failure_witness :
    (on_search_title envNoResult dbOneBook "Moby Dick").1 = dbOneBook :=
  C6_no_mutation_on_failure envNoResult dbOneBook "Moby Dick"
    (fun l t hcontra => by
      have h2 : (on_search_title envNoResult dbOneBook "Moby Dick").2 =
          SearchOutcome.notFound := by decide
      rw [h2] at hcontra
      exact SearchOutcome.noConfusion hcontra)

/-! ## C3: what the second, cache-hitting call returns -/

theorem insert_books_eq (db : DB) (t u : String) (wfs : List (String × Nat)) :
    (insert_or_update_book db t u wfs).books = (books_after_first_commit db t u).books := by
  rw [insert_or_update_book]
  split
  · rfl
  · rfl

theorem upsert_title_of_row (b : BookRow) (t u : String) :
    (if b.title == t then (⟨b.id, b.title, u⟩ : BookRow) else b).title = b.title := by
  by_cases h : b.title == t
  · rw [if_pos h]
  · rw [if_neg h]

theorem get_book_after_upsert_none (db : DB) (t u : String) (wfs : List (String × Nat))
    (title : String) (h0 : get_book_by_title db title = none)
    (hc : db.books.any (fun b => b.title == t) = true) :
    get_book_by_title (insert_or_update_book db t u wfs) title = none := by
  rw [get_book_by_title, insert_books_eq]
  have hb : (books_after_first_commit db t u).books =
      db.books.map (fun b => if b.title == t then ⟨b.id, b.title, u⟩ else b) := by
    rw [books_after_first_commit, if_pos hc]
  rw [hb, List.find?_map]
  have hcomp : ((fun b : BookRow => lowerStr b.title == lowerStr title) ∘
      (fun b => if b.title == t then (⟨b.id, b.title, u⟩ : BookRow) else b)) =
      (fun b : BookRow => lowerStr b.title == lowerStr title) := by
    funext b
    simp only [Function.comp]
    rw [upsert_title_of_row]
  rw [hcomp]
  rw [get_book_by_title] at h0
  rw [h0]
  rfl

theorem upsert_fresh (db : DB) (t u : String) (wfs : List (String × Nat))
    (hc : ¬ db.books.any (fun b => b.title == t) = true) :
    (insert_or_update_book db t u wfs).books = db.books ++ [⟨db.nextId, t, u⟩] ∧
    (insert_or_update_book db t u wfs).freqs =
      db.freqs.filter (fun r => !(r.book_id == db.nextId)) ++
        wfs.map (fun p => ⟨db.nextId, p.1, p.2⟩) := by
  have hb : books_after_first_commit db t u =
      ⟨db.books ++ [⟨db.nextId, t, u⟩], db.freqs, db.nextId + 1⟩ := by
    rw [books_after_first_commit, if_neg hc]
  have h1 : db.books.find? (fun b => b.title == t) = none := by
    rw [List.find?_eq_none]
    intro b hbmem hp
    exact hc (List.any_eq_true.mpr ⟨b, hbmem, hp⟩)
  have hfind : (books_after_first_commit db t u).books.find? (fun b => b.title == t) =
      some ⟨db.nextId, t, u⟩ := by
    rw [hb]
    show List.find? (fun b => b.title == t) (db.books ++ [(⟨db.nextId, t, u⟩ : BookRow)]) =
      some (⟨db.nextId, t, u⟩ : BookRow)
    rw [List.find?_append, h1]
    simp [List.find?]
  constructor
  · rw [insert_books_eq, hb]
  · simp only [insert_or_update_book, hfind]
    rw [hb]

theorem get_book_after_upsert_fresh (db : DB) (t u : String) (wfs : List (String × Nat))
    (title : String) (h0 : get_book_by_title db title = none)
    (hc : ¬ db.books.any (fun b => b.title == t) = true) :
    get_book_by_title (insert_or_update_book db t u wfs) title =
      (if lowerStr t == lowerStr title then some ⟨db.nextId, t, u⟩ else none) := by
  rw [get_book_by_title, (upsert_fresh db t u wfs hc).1, List.find?_append]
  rw [get_book_by_title] at h0
  rw [h0]
  by_cases hl : (lowerStr t == lowerStr title) = true
  · rw [if_pos hl]
    simp [List.find?, hl]
  · rw [if_neg hl]
    simp [List.find?, hl]

theorem get_word_frequencies_after_fresh (db : DB) (t u : String)
    (wfs : List (String × Nat))
    (hc : ¬ db.books.any (fun b => b.title == t) = true) :
    get_word_frequencies (insert_or_update_book db t u wfs) db.nextId = sortFreqs wfs := by
  rw [get_word_frequencies, (upsert_fresh db t u wfs hc).2, List.filter_append]
  have h1 : (db.freqs.filter (fun r => !(r.book_id == db.nextId))).filter
      (fun r => r.book_id == db.nextId) = [] := by
    rw [List.filter_filter]
    simp
  have h2 : (wfs.map (fun p => (⟨db.nextId, p.1, p.2⟩ : FreqRow))).filter
      (fun r => r.book_id == db.nextId) = wfs.map (fun p => ⟨db.nextId, p.1, p.2⟩) := by
    simp [List.filter_map, Function.comp_def]
  rw [h1, h2]
  simp [List.map_map, Function.comp_def]

/-- The spec's example book text, also usable as a one-line query/title. -/
def exText : String := "The cat sat on the mat. The Cat ran."

/-- A network that resolves any title to location "u" and serves `exText`
there. -/
def envCat : Env := ⟨fun _ => .ok (some "u"), fun _ => .ok exText⟩

/-- C3 counterexample: starting from an empty store, the first by-title
call computes and shows the fresh `most_common` order
(cat, sat, mat, ran), the second call hits the cache and shows the SQL
order `frequency DESC, word ASC` (cat, mat, ran, sat): same pairs,
different order, so the two returned lists are not identical. -/
theorem C3_counterexample :
    (on_search_title envCat ⟨[], [], 0⟩ exText).2 =
      .fresh [("cat", 2), ("sat", 1), ("mat", 1), ("ran", 1)] exText ∧
    (on_search_title envCat (on_search_title envCat ⟨[], [], 0⟩ exText).1 exText).2 =
      .cacheHit [("cat", 2), ("mat", 1), ("ran", 1), ("sat", 1)] exText ∧
    [("cat", 2), ("sat", 1), ("mat", 1), ("ran", 1)] ≠
      [("cat", 2), ("mat", 1), ("ran", 1), ("sat", 1)] := by
  refine ⟨by decide, by decide, by decide⟩

theorem length_compute_top_words_le (text : String) (n : Nat) :
    (compute_top_words text n).length ≤ n := by
  rw [compute_top_words]
  exact List.length_take_le n _

/-- C3 (amended): when the first by-title call misses an absent entry,
computes and stores, and the second call hits the cache, the second call
returns exactly the same (word, count) pairs, but re-sorted by the
store's ordering (count descending, word ascending) — a permutation of
the first call's list, not necessarily the identical order. -/
theorem C3_amended (env : Env) (db0 db1 : DB) (raw : String)
    (l1 l2 : List (String × Nat)) (t1 t2 : String)
    (h0 : get_book_by_title db0 (strip raw) = none)
    (h1 : on_search_title env db0 raw = (db1, .fresh l1 t1))
    (h2 : (on_search_title env db1 raw).2 = .cacheHit l2 t2) :
    l2 = sortFreqs l1 ∧ l2.Perm l1 := by
  rcases on_search_title_spec env db0 raw with ⟨he, heq⟩ |
    ⟨hne, book, hfound, _, heq⟩ | ⟨hne, _, heq⟩
  · rw [heq] at h1
    have hsnd := congrArg Prod.snd h1
    simp at hsnd
  · rw [heq] at h1
    have hsnd := congrArg Prod.snd h1
    simp at hsnd
  · rw [heq] at h1
    rcases miss_path_spec env db0 (strip raw) with hm | hm | ⟨u, text, hs, hf, hm⟩
    · rw [hm] at h1
      have hsnd := congrArg Prod.snd h1
      simp at hsnd
    · rw [hm] at h1
      have hsnd := congrArg Prod.snd h1
      simp at hsnd
    · rw [hm, Prod.mk.injEq] at h1
      obtain ⟨hdb1, hout⟩ := h1
      have hinj := SearchOutcome.fresh.inj hout
      have hl1 : l1 = compute_top_words text 10 := hinj.1.symm
      subst hdb1
      rcases on_search_title_spec env
          (insert_or_update_book db0 (extract_title text) u (compute_top_words text 10)) raw with
        ⟨he2, _⟩ | ⟨_, book2, hfound2, hnemp2, heq2⟩ | ⟨_, _, heq2⟩
      · exact absurd he2 hne
      · rw [heq2] at h2
        have hinj2 := SearchOutcome.cacheHit.inj h2
        by_cases hc : db0.books.any (fun b => b.title == extract_title text) = true
        · have hnone := get_book_after_upsert_none db0 (extract_title text) u
            (compute_top_words text 10) (strip raw) h0 hc
          rw [hnone] at hfound2
          exact Option.noConfusion hfound2
        · have hfresh := get_book_after_upsert_fresh db0 (extract_title text) u
            (compute_top_words text 10) (strip raw) h0 hc
          by_cases hlow : (lowerStr (extract_title text) == lowerStr (strip raw)) = true
          · rw [if_pos hlow] at hfresh
            rw [hfresh] at hfound2
            have hbook2 : book2 = ⟨db0.nextId, extract_title text, u⟩ :=
              (Option.some.inj hfound2).symm
            have hgwf : get_word_frequencies
                (insert_or_update_book db0 (extract_title text) u (compute_top_words text 10))
                book2.id = sortFreqs (compute_top_words text 10) := by
              rw [hbook2]
              exact get_word_frequencies_after_fresh db0 (extract_title text) u
                (compute_top_words text 10) hc
            have hlen : (sortFreqs (compute_top_words text 10)).length ≤ 10 := by
              rw [sortFreqs, length_insSortBy]
              exact length_compute_top_words_le text 10
            have hl2 : l2 = sortFreqs (compute_top_words text 10) := by
              rw [← hinj2.1, hgwf, List.take_of_length_le hlen]
            constructor
            · rw [hl2, hl1]
            · rw [hl2, hl1]
              exact perm_insSortBy freqOrd (compute_top_words text 10)
          · rw [if_neg hlow] at hfresh
            rw [hfresh] at hfound2
            exact Option.noConfusion hfound2
      · rw [heq2] at h2
        exact absurd h2 (miss_path_not_hit env _ (strip raw) l2 t2)

/-- The store after the first call of the C3 witness run. -/
def dbAfterFirst : DB :=
  ⟨[⟨0, exText, "u"⟩], [⟨0, "cat", 2⟩, ⟨0, "sat", 1⟩, ⟨0, "mat", 1⟩, ⟨0, "ran", 1⟩], 1⟩

/-- Witness for C3 (amended) on the concrete two-call run of the
counterexample. -/
theorem C3_amended_witness :
    [("cat", 2), ("mat", 1), ("ran", 1), ("sat", 1)] =
      sortFreqs [("cat", 2), ("sat", 1), ("mat", 1), ("ran", 1)] ∧
    List.Perm [(("cat" : String), (2 : Nat)), ("mat", 1), ("ran", 1), ("sat", 1)]
      [("cat", 2), ("sat", 1), ("mat", 1), ("ran", 1)] :=
  C3_amended envCat ⟨[], [], 0⟩ dbAfterFirst exText
    [("cat", 2), ("sat", 1), ("mat", 1), ("ran", 1)]
    [("cat", 2), ("mat", 1), ("ran", 1), ("sat", 1)]
    exText exText (by decide) (by decide) (by decide)
